import Mathlib

/-!
Verification of the timer-multiplexed interrupt-driven peripheral subsystem
of the `ossidata` ATmega328P HAL: the monotonic clock (`time.rs`), the tone
generator (`tone.rs`), and the servo pulse scheduler (`servo.rs`), shallowly
embedded as executable Lean functions over explicit states.  Machine
integers are modelled as `Nat` with explicit `% 2^w` at the places where the
Rust code uses wrapping casts or wrapping arithmetic.
-/

namespace Ossidata

/-! ## Monotonic clock (`src/boards/arduino-uno/src/time.rs`) -/

/-- Modulus `2^32` of Rust `u32` arithmetic. -/
def U32 : Nat := 4294967296

/-- Modulus `2^16` of Rust `u16` arithmetic. -/
def U16 : Nat := 65536

/-- Modulus `2^8` of Rust `u8` arithmetic. -/
def U8 : Nat := 256

/-- Constant `MICROSECONDS_PER_TIMER0_OVERFLOW` from `time.rs`. -/
def MICROSECONDS_PER_TIMER0_OVERFLOW : Nat := 1024

/-- Constant `MILLIS_INC` from `time.rs`: whole milliseconds per Timer0 overflow. -/
def MILLIS_INC : Nat := 1

/-- Constant `FRACT_INC` from `time.rs`: fractional milliseconds per overflow. -/
def FRACT_INC : Nat := 3

/-- Constant `FRACT_MAX` from `time.rs`. -/
def FRACT_MAX : Nat := 125

/-- The global timing variables of `time.rs`:
`TIMER0_MILLIS : u32`, `TIMER0_FRACT : u8`, `TIMER0_OVERFLOW_COUNT : u32`. -/
structure ClockState where
  millis : Nat
  fract : Nat
  ovcount : Nat
  deriving Repr, DecidableEq

/-- The zeroed clock state the statics start from. -/
def clockInit : ClockState := ⟨0, 0, 0⟩

/-- One execution of the Timer0 overflow handler `__vector_16` of `time.rs`:
adds `FRACT_INC` to the fractional accumulator and `MILLIS_INC` to the
millisecond counter (both with wrapping arithmetic), carries one extra
millisecond when the accumulator reaches `FRACT_MAX`, and increments the
overflow counter. -/
def vector16 (s : ClockState) : ClockState :=
  let fract := (s.fract + FRACT_INC) % U8
  let millis := (s.millis + MILLIS_INC) % U32
  if FRACT_MAX ≤ fract then
    { millis := (millis + 1) % U32
      fract := (fract + (U8 - FRACT_MAX)) % U8
      ovcount := (s.ovcount + 1) % U32 }
  else
    { millis := millis, fract := fract, ovcount := (s.ovcount + 1) % U32 }

/-- The clock state after the overflow handler has run `n` times from the
zeroed initial state. -/
def clockAfter : Nat → ClockState
  | 0 => clockInit
  | n + 1 => vector16 (clockAfter n)

/-- Function `micros()` from `time.rs`, as a function of the snapshot it takes:
the stored overflow count `ov`, the live counter register value `tcnt`,
and the pending `TOV0` flag.  When the flag is set and `tcnt < 255` the
overflow count is treated as one greater; the result is
`adjusted * 1024 + tcnt * 4` in wrapping `u32` arithmetic. -/
def microsVal (ov tcnt : Nat) (pending : Bool) : Nat :=
  let adjusted := if pending ∧ tcnt < 255 then (ov + 1) % U32 else ov
  (adjusted * MICROSECONDS_PER_TIMER0_OVERFLOW % U32 + tcnt * 4) % U32

/-- Ticks elapsed since the start of the epoch that began when the stored
overflow count last changed: the live counter value, plus a full counter
period if the hardware has wrapped with the overflow interrupt still
unserviced (pending flag set). -/
def epochElapsed (tcnt : Nat) (pending : Bool) : Nat :=
  (if pending then 256 else 0) + tcnt

/-- The interrupt-enable effects of `millis()` from `time.rs`: the body is
`cli` (clear the global interrupt-enable flag), a read of `TIMER0_MILLIS`,
then `sei` (set the flag).  `millisRun prior m` returns the flag after the
call together with the value read, starting from prior flag state `prior`
and stored counter `m`. -/
inductive IrqOp where
  | cli
  | sei
  | readMillis
  deriving Repr, DecidableEq

/-- Effect of one instruction of the `millis()` body on the pair
(interrupt-enable flag, accumulator of the read value). -/
def execIrqOp (mem : Nat) : Bool × Nat → IrqOp → Bool × Nat
  | (_, acc), .cli => (false, acc)
  | (_, acc), .sei => (true, acc)
  | (flag, _), .readMillis => (flag, mem)

/-- The instruction sequence of the body of `millis()` in `time.rs`. -/
def millisBody : List IrqOp := [.cli, .readMillis, .sei]

/-- Run `millis()` from prior interrupt-enable state `prior` with stored
millisecond counter `mem`: returns (flag after return, value returned). -/
def millisRun (prior : Bool) (mem : Nat) : Bool × Nat :=
  millisBody.foldl (execIrqOp mem) (prior, 0)

/-! ## Servo pulse scheduler (`src/boards/arduino-uno/src/servo.rs`) -/

/-- Constant `MIN_PULSE_WIDTH` from `servo.rs` (0 degrees). -/
def MIN_PULSE_WIDTH : Nat := 544

/-- Constant `MAX_PULSE_WIDTH` from `servo.rs` (180 degrees). -/
def MAX_PULSE_WIDTH : Nat := 2400

/-- Constant `DEFAULT_PULSE_WIDTH` from `servo.rs` (center position). -/
def DEFAULT_PULSE_WIDTH : Nat := 1500

/-- Constant `REFRESH_INTERVAL` from `servo.rs`: the 20 ms servo frame, in µs. -/
def REFRESH_INTERVAL : Nat := 20000

/-- Constant `SERVOS_PER_TIMER` from `servo.rs`. -/
def SERVOS_PER_TIMER : Nat := 12

/-- Constant `TICKS_PER_US` from `servo.rs`: Timer1 ticks per microsecond
(`CPU_FREQ_MHZ / TIMER_PRESCALER = 16 / 8 = 2`). -/
def TICKS_PER_US : Nat := 2

/-- The `ServoState` struct of `servo.rs`: one servo channel slot.
All `u16` fields are modelled as `Nat`; wrapping is applied at the
operations that the Rust code performs with `u16` arithmetic. -/
structure ServoState where
  pin : Nat
  pulse_width : Nat
  min_pulse : Nat
  max_pulse : Nat
  is_attached : Bool
  deriving Repr, DecidableEq

namespace Servo

/-- The slot contents installed by `Servo::new`: pin 0, default pulse
width, default limits, detached. -/
def new : ServoState :=
  ⟨0, DEFAULT_PULSE_WIDTH, MIN_PULSE_WIDTH, MAX_PULSE_WIDTH, false⟩

/-- Method `Servo::attach_with_limits` as it acts on the slot: installs the pin
and the custom `[min, max]` limits and marks the slot attached.  The
stored `pulse_width` is not modified. -/
def attach_with_limits (s : ServoState) (pin mn mx : Nat) : ServoState :=
  { s with pin := pin, min_pulse := mn, max_pulse := mx, is_attached := true }

/-- Method `Servo::attach`: `attach_with_limits` with the default limits. -/
def attach (s : ServoState) (pin : Nat) : ServoState :=
  attach_with_limits s pin MIN_PULSE_WIDTH MAX_PULSE_WIDTH

/-- Method `Servo::write_microseconds`: stores
`microseconds.max(min_pulse).min(max_pulse)` as the new pulse width. -/
def write_microseconds (s : ServoState) (microseconds : Nat) : ServoState :=
  { s with pulse_width := min (max microseconds s.min_pulse) s.max_pulse }

/-- Method `Servo::write`: clamps the angle to 180, computes
`min_pulse + (angle * (max_pulse - min_pulse)) / 180` — the subtraction is
`u16` (wrapping), the product and division are `u32`, the result is cast
back to `u16` and added with `u16` wrapping — and stores the result
through `write_microseconds`. -/
def write (s : ServoState) (angle : Nat) : ServoState :=
  let angle := min angle 180
  let range := (s.max_pulse + U16 - s.min_pulse) % U16
  let pw := (s.min_pulse + angle * range / 180 % U16) % U16
  write_microseconds s pw

/-- Method `Servo::read`: maps the stored pulse width back to an angle,
`((pulse_width - min_pulse) * 180) / (max_pulse - min_pulse)`, with `u16`
wrapping subtractions and a final `u16` cast.  (When the limits are equal
the Rust code divides by zero and panics; this model is only used with
`min_pulse < max_pulse`.) -/
def read (s : ServoState) : Nat :=
  let range := (s.max_pulse + U16 - s.min_pulse) % U16
  let offset := (s.pulse_width + U16 - s.min_pulse) % U16
  offset * 180 / range % U16

end Servo

/-- The foreground servo-slot operations named by the spec, acting on one
allocated slot (each operation of `servo.rs` touches only the slot at the
handle's own index). -/
inductive ServoOp where
  | attachL (pin mn mx : Nat)
  | write (angle : Nat)
  | writeUs (us : Nat)
  deriving Repr, DecidableEq

/-- Apply one foreground operation to a slot. -/
def applyServoOp (s : ServoState) : ServoOp → ServoState
  | .attachL pin mn mx => Servo.attach_with_limits s pin mn mx
  | .write angle => Servo.write s angle
  | .writeUs us => Servo.write_microseconds s us

/-- Apply a sequence of foreground operations to a slot. -/
def applyServoOps (s : ServoState) (ops : List ServoOp) : ServoState :=
  ops.foldl applyServoOp s

/-- The spec's slot invariant: the stored pulse width lies within the
slot's current `[min_pulse, max_pulse]` limits. -/
def slotWidthInv (s : ServoState) : Prop :=
  s.min_pulse ≤ s.pulse_width ∧ s.pulse_width ≤ s.max_pulse

instance (s : ServoState) : Decidable (slotWidthInv s) := by
  unfold slotWidthInv; infer_instance

/-- Predicate `limitsRespectWidth s ops` holds when every `attach_with_limits` in
`ops` installs `u16` limits that contain the slot's pulse width at the
moment of the call. -/
def limitsRespectWidth : ServoState → List ServoOp → Bool
  | _, [] => true
  | s, op :: rest =>
    (match op with
     | .attachL _ mn mx =>
         decide (mn ≤ s.pulse_width) && decide (s.pulse_width ≤ mx) &&
           decide (mx < U16)
     | .write _ => true
     | .writeUs _ => true) &&
      limitsRespectWidth (applyServoOp s op) rest

/-- The scheduler state read and written by the Timer1 compare interrupt:
the global servo table `SERVOS`, `CURRENT_SERVO_INDEX`, the digital output
levels of the pins, and the 16-bit compare register `OCR1A` (in ticks)
with the counter `TCNT1`. -/
structure SchedState where
  servos : List (Option ServoState)
  currentIndex : Nat
  pins : List Bool
  ocr1a : Nat
  tcnt1 : Nat
  deriving Repr, DecidableEq

/-- The body of the `while next_index < SERVOS_PER_TIMER` scan of
`__vector_11`, with explicit fuel (structural recursion): find the first
attached slot at index `i` or above. -/
def findAttachedFrom (servos : List (Option ServoState)) :
    Nat → Nat → Option (Nat × ServoState)
  | 0, _ => none
  | fuel + 1, i =>
      if i < SERVOS_PER_TIMER then
        match servos.getD i none with
        | some sv =>
            if sv.is_attached then some (i, sv)
            else findAttachedFrom servos fuel (i + 1)
        | none => findAttachedFrom servos fuel (i + 1)
      else none

/-- The `while next_index < SERVOS_PER_TIMER` scan of `__vector_11`: fuel
`SERVOS_PER_TIMER` always suffices, because each iteration increments `i`
and the loop stops as soon as `i` reaches `SERVOS_PER_TIMER`. -/
def findAttached (servos : List (Option ServoState)) (i : Nat) :
    Option (Nat × ServoState) :=
  findAttachedFrom servos SERVOS_PER_TIMER i

/-- Value `total_pulse_time` as computed at the end of `__vector_11`: the sum of
the pulse widths of all attached slots. -/
def totalPulseTime (servos : List (Option ServoState)) : Nat :=
  (((servos.filterMap id).filter fun s => s.is_attached).map
    fun s => s.pulse_width).sum

/-- The Timer1 Compare A interrupt handler `__vector_11` of `servo.rs`:
drive the current slot's pin low, scan forward for the next attached slot
and start its pulse (compare register = `pulse_width * TICKS_PER_US`,
`u16` wrapping), or — when no attached slot remains — program the
saturating frame remainder `REFRESH_INTERVAL - total_pulse_time` and reset
the index to 0. -/
def vector11 (s : SchedState) : SchedState :=
  let pins :=
    match s.servos.getD s.currentIndex none with
    | some sv => if sv.is_attached then s.pins.set sv.pin false else s.pins
    | none => s.pins
  match findAttached s.servos (s.currentIndex + 1) with
  | some (j, sv) =>
      { s with
        pins := pins.set sv.pin true
        ocr1a := sv.pulse_width * TICKS_PER_US % U16
        tcnt1 := 0
        currentIndex := j }
  | none =>
      let remaining := REFRESH_INTERVAL - totalPulseTime s.servos
      { s with
        pins := pins
        ocr1a := remaining * TICKS_PER_US % U16
        tcnt1 := 0
        currentIndex := 0 }

/-- Function `start_servo_cycle` of `servo.rs`: reset the index to 0 and, when
slot 0 exists and is attached, drive its pin high and program its pulse
width. -/
def start_servo_cycle (s : SchedState) : SchedState :=
  let s := { s with currentIndex := 0 }
  match s.servos.getD 0 none with
  | some sv =>
      if sv.is_attached then
        { s with
          pins := s.pins.set sv.pin true
          ocr1a := sv.pulse_width * TICKS_PER_US % U16
          tcnt1 := 0 }
      else s
  | none => s

/-- Collect the compare values (tick durations) programmed by successive
`__vector_11` firings until the handler programs the frame gap and resets
the index to 0, with fuel bounding the number of firings. -/
def cycleOcrs : Nat → SchedState → List Nat
  | 0, _ => []
  | fuel + 1, s =>
      let s' := vector11 s
      if s'.currentIndex = 0 then [s'.ocr1a] else s'.ocr1a :: cycleOcrs fuel s'

/-- A concrete servo table: slots 0 and 1 attached (pins 9 and 10) at the
default 1500 µs width, all other slots unallocated. -/
def twoServoTable : List (Option ServoState) :=
  [some ⟨9, 1500, 544, 2400, true⟩, some ⟨10, 1500, 544, 2400, true⟩,
    none, none, none, none, none, none, none, none, none, none]

/-- All pins low. -/
def pinsAllLow : List Bool := List.replicate 14 false

/-- The scheduler state right after `__vector_11` has programmed the frame
gap for `twoServoTable`: index 0, both pins low, compare register holding
the gap duration `(20000 - 3000) * 2` ticks. -/
def steadyEntry : SchedState := ⟨twoServoTable, 0, pinsAllLow, 34000, 0⟩

/-! ## Tone generator (`src/boards/arduino-uno/src/tone.rs`) -/

/-- Constant `F_CPU` from `tone.rs`. -/
def F_CPU : Nat := 16000000

/-- The `PRESCALERS` table of `tone.rs`: (clock-select bits, divisor),
smallest divisor first. -/
def PRESCALERS : List (Nat × Nat) :=
  [(1, 1), (2, 8), (3, 32), (4, 64), (5, 128), (6, 256), (7, 1024)]

/-- The compare value `F_CPU / frequency / 2 / prescaler` computed inside
the `tone` selection loop. -/
def toneCalcOcr (frequency prescaler : Nat) : Nat :=
  F_CPU / frequency / 2 / prescaler

/-- The prescaler selection loop of `tone`: starting from
`ocr = 0, prescaler_bits = 0`, take the first table entry whose compare
value lies in `1..=256` and return `(calc_ocr - 1, bits)`. -/
def findOcrLoop (frequency : Nat) : List (Nat × Nat) → Nat × Nat
  | [] => (0, 0)
  | (bits, prescaler) :: rest =>
      let calc_ocr := toneCalcOcr frequency prescaler
      if 0 < calc_ocr ∧ calc_ocr ≤ 256 then (calc_ocr - 1, bits)
      else findOcrLoop frequency rest

/-- The `(ocr, prescaler_bits)` pair `tone` ends up using, or `none` when
the `if ocr == 0 { return }` guard makes the call a no-op. -/
def toneSelect (frequency : Nat) : Option (Nat × Nat) :=
  let p := findOcrLoop frequency PRESCALERS
  if p.1 = 0 then none else some p

/-- Helper `pin_to_output_port` of `tone.rs` (port register address; 0 = null). -/
def pin_to_output_port (pin : Nat) : Nat :=
  if pin ≤ 7 then 0x2B else if pin ≤ 13 then 0x25 else 0

/-- Helper `pin_to_ddr_port` of `tone.rs` (DDR register address; 0 = null). -/
def pin_to_ddr_port (pin : Nat) : Nat :=
  if pin ≤ 7 then 0x2A else if pin ≤ 13 then 0x24 else 0

/-- Helper `pin_to_bit_mask` of `tone.rs`. -/
def pin_to_bit_mask (pin : Nat) : Nat :=
  if pin ≤ 7 then 1 <<< pin else if pin ≤ 13 then 1 <<< (pin - 8) else 0

/-- The tone-generator state: the global statics of `tone.rs`
(`TONE_PIN`, `TONE_TOGGLE_COUNT`, `TONE_PORT`, `TONE_MASK`), the two
output port registers and DDR registers the pins 0–13 live on, and the
Timer2 registers it programs (`OCIE2A` modelled as the interrupt-enable
bit of `TIMSK2`). -/
structure ToneState where
  tonePin : Option Nat
  toggleCount : Nat
  tonePort : Nat
  toneMask : Nat
  portb : Nat
  portd : Nat
  ddrb : Nat
  ddrd : Nat
  tccr2a : Nat
  tccr2b : Nat
  ocr2a : Nat
  tcnt2 : Nat
  ocie2a : Bool
  deriving Repr, DecidableEq

/-- The all-zero reset state of the tone generator. -/
def toneInit : ToneState := ⟨none, 0, 0, 0, 0, 0, 0, 0, 0, 0, 0, 0, false⟩

/-- Read the output port register at address `addr` (0x2B = PORTD,
0x25 = PORTB, as in `tone.rs`). -/
def readPortReg (s : ToneState) (addr : Nat) : Nat :=
  if addr = 0x2B then s.portd else if addr = 0x25 then s.portb else 0

/-- Write the output port register at address `addr`. -/
def writePortReg (s : ToneState) (addr v : Nat) : ToneState :=
  if addr = 0x2B then { s with portd := v }
  else if addr = 0x25 then { s with portb := v }
  else s

/-- Read the DDR register at address `addr` (0x2A = DDRD, 0x24 = DDRB). -/
def readDdrReg (s : ToneState) (addr : Nat) : Nat :=
  if addr = 0x2A then s.ddrd else if addr = 0x24 then s.ddrb else 0

/-- Write the DDR register at address `addr`. -/
def writeDdrReg (s : ToneState) (addr v : Nat) : ToneState :=
  if addr = 0x2A then { s with ddrd := v }
  else if addr = 0x24 then { s with ddrb := v }
  else s

/-- The output level of `pin` as held in the port registers. -/
def pinLevel (s : ToneState) (pin : Nat) : Bool :=
  (readPortReg s (pin_to_output_port pin)).testBit
    (if pin ≤ 7 then pin else pin - 8)

/-- Function `tone(pin, frequency)` of `tone.rs`: validate the pin and frequency,
select the prescaler/compare pair, and if one exists record the pin, reset
the toggle count to 0 (infinite duration), record the port/mask pair, set
the pin as output in the DDR, configure Timer2 in CTC mode with the chosen
prescaler and compare value, and enable the compare interrupt.  When the
guards fail the state is returned unchanged (silent no-op). -/
def tone (s : ToneState) (pin frequency : Nat) : ToneState :=
  if frequency = 0 ∨ 13 < pin then s
  else
    match toneSelect frequency with
    | none => s
    | some (ocr, prescaler_bits) =>
        let port := pin_to_output_port pin
        let mask := pin_to_bit_mask pin
        let ddr := pin_to_ddr_port pin
        let s1 := { s with
          tonePin := some pin
          toggleCount := 0
          tonePort := port
          toneMask := mask }
        let s2 := writeDdrReg s1 ddr (readDdrReg s1 ddr ||| mask)
        { s2 with
          tccr2a := 2
          tccr2b := prescaler_bits
          ocr2a := ocr % U8
          tcnt2 := 0
          ocie2a := true }

/-- Function `tone_duration(pin, frequency, duration_ms)` of `tone.rs`: store the
computed toggle count `(frequency * duration_ms * 2) / 1000` (with `u32`
wrapping products) and then call `tone(pin, frequency)`. -/
def tone_duration (s : ToneState) (pin frequency duration_ms : Nat) :
    ToneState :=
  if frequency = 0 ∨ duration_ms = 0 then s
  else
    let toggles := frequency * duration_ms % U32 * 2 % U32 / 1000
    tone { s with toggleCount := toggles } pin frequency

/-- Function `no_tone(pin)` of `tone.rs`: when `pin` is the currently active tone
pin, disable the compare interrupt, drive the recorded pin low, and clear
the pin record and toggle count; otherwise do nothing. -/
def no_tone (s : ToneState) (pin : Nat) : ToneState :=
  if s.tonePin = some pin then
    let s1 := { s with ocie2a := false }
    let s2 :=
      if s1.tonePort ≠ 0 then
        writePortReg s1 s1.tonePort
          (readPortReg s1 s1.tonePort &&& (255 ^^^ s1.toneMask))
      else s1
    { s2 with tonePin := none, toggleCount := 0 }
  else s

/-- The Timer2 Compare Match A ISR `__vector_7` of `tone.rs`: toggle the
recorded pin by XOR on its port register; when a positive toggle count is
present, decrement it, and on reaching zero disable the compare interrupt,
drive the pin low, and clear the pin record. -/
def vector7 (s : ToneState) : ToneState :=
  let s1 :=
    if s.tonePort ≠ 0 then
      writePortReg s s.tonePort (readPortReg s s.tonePort ^^^ s.toneMask)
    else s
  if 0 < s1.toggleCount then
    let newCount := s1.toggleCount - 1
    let s2 := { s1 with toggleCount := newCount }
    if newCount = 0 then
      let s3 := { s2 with ocie2a := false }
      let s4 :=
        if s3.tonePort ≠ 0 then
          writePortReg s3 s3.tonePort
            (readPortReg s3 s3.tonePort &&& (255 ^^^ s3.toneMask))
        else s3
      { s4 with tonePin := none }
    else s2
  else s1

/-- The tone state after `tone_duration(11, 440, 1000)` is called from
reset: the intended toggle budget is `440 * 1000 * 2 / 1000 = 880`. -/
def toneBugState : ToneState := tone_duration toneInit 11 440 1000

/-- Closed form of the clock state after `n` overflow interrupts: the
millisecond counter is `n + 3n/125` (mod `2^32`), the fractional
accumulator is `3n mod 125`, and the overflow counter is `n` (mod `2^32`). -/
theorem clockAfter_closed (n : Nat) :
    clockAfter n = ⟨(n + 3 * n / 125) % U32, 3 * n % 125, n % U32⟩ := by
  induction n with
  | zero => rfl
  | succ n ih =>
    show vector16 (clockAfter n) = _
    rw [ih]
    unfold vector16
    simp only [MILLIS_INC, FRACT_INC, FRACT_MAX, U8, U32, Nat.mod_add_mod]
    rw [Nat.mod_eq_of_lt (by omega : 3 * n % 125 + 3 < 256)]
    split_ifs with hc
    · simp only [ClockState.mk.injEq, Nat.mod_add_mod]
      refine ⟨?_, ?_, ?_⟩
      · rw [show n + 3 * n / 125 + 1 + 1 = n + 1 + 3 * (n + 1) / 125 by omega]
      · rw [Nat.mod_eq_sub_mod (by omega), Nat.mod_eq_of_lt (by omega)]
        omega
      · trivial
    · simp only [ClockState.mk.injEq, Nat.mod_add_mod]
      refine ⟨?_, ?_, ?_⟩
      · rw [show n + 3 * n / 125 + 1 = n + 1 + 3 * (n + 1) / 125 by omega]
      · omega
      · trivial

/-- C5: after the Timer0 overflow handler has run `N` times from the zeroed
clock state, `millis()`'s counter equals `floor(N * 1.024) = 128*N/125`
exactly (hence within one unit of integer rounding), for every
`N ≤ 100000`: the fractional accumulator scheme never drifts. -/
theorem millis_longrun_accuracy (n : Nat) (h : n ≤ 100000) :
    (clockAfter n).millis = 128 * n / 125 := by
  rw [clockAfter_closed]
  show (n + 3 * n / 125) % U32 = 128 * n / 125
  simp only [U32]
  rw [Nat.mod_eq_of_lt (by omega)]
  omega

/-- Witness for `millis_longrun_accuracy` at `N = 1000`. -/
theorem millis_longrun_accuracy_witness :
    1000 ≤ 100000 ∧ (clockAfter 1000).millis = 128 * 1000 / 125 :=
  ⟨by decide, millis_longrun_accuracy 1000 (by decide)⟩

/-- C4 counterexample: `micros()` is not monotone over every pair of
instants of the same epoch.  With stored overflow count 0, the instant
(counter 255, overflow flag pending) comes one tick after (counter 254,
pending) in the same epoch — the stored count is unchanged and no 32-bit
wraparound is involved — yet the computed value drops from 2040 to 1020,
because the `tcnt < 255` guard stops treating the stored count as one
greater at the very last counter value of a pending epoch. -/
theorem micros_drop_at_pending_255 :
    epochElapsed 254 true ≤ epochElapsed 255 true ∧
    microsVal 0 255 true < microsVal 0 254 true := by decide

/-- With the counter value bounded by its 8-bit width and the overflow
count small enough that no 32-bit wraparound occurs, `micros()` reduces to
plain (non-wrapping) arithmetic on the compensated overflow count. -/
theorem microsVal_flat (ov tcnt : Nat) (p : Bool)
    (ht : tcnt ≤ 255) (hov : ov ≤ 4194000) :
    microsVal ov tcnt p =
      if p ∧ tcnt < 255 then (ov + 1) * 1024 + tcnt * 4
      else ov * 1024 + tcnt * 4 := by
  unfold microsVal
  simp only [MICROSECONDS_PER_TIMER0_OVERFLOW, U32]
  split_ifs with h
  · rw [Nat.mod_eq_of_lt (by omega : ov + 1 < 4294967296),
      Nat.mod_eq_of_lt (by omega : (ov + 1) * 1024 < 4294967296)]
    exact Nat.mod_eq_of_lt (by omega)
  · rw [Nat.mod_eq_of_lt (by omega : ov * 1024 < 4294967296)]
    exact Nat.mod_eq_of_lt (by omega)

/-- C4 amended: `micros()` is monotone across the overflow boundary for
all instants of the same epoch (same stored overflow count, no 32-bit
wraparound of the result) *except* the single combination where the
pending flag is set and the live counter has reached 255 again; and when
the flag is pending with the counter below 255 the overflow count is
treated as one greater than its stored value. -/
theorem micros_monotone_within_epoch (ov t1 t2 : Nat) (p1 p2 : Bool)
    (ht1 : t1 ≤ 255) (ht2 : t2 ≤ 255) (hov : ov ≤ 4194000)
    (horder : epochElapsed t1 p1 ≤ epochElapsed t2 p2)
    (hlast : ¬(p2 = true ∧ t2 = 255)) :
    microsVal ov t1 p1 ≤ microsVal ov t2 p2 ∧
    (p2 = true → microsVal ov t2 p2 = ((ov + 1) * 1024 + t2 * 4) % U32) := by
  constructor
  · rw [microsVal_flat ov t1 p1 ht1 hov, microsVal_flat ov t2 p2 ht2 hov]
    unfold epochElapsed at horder
    cases p1 <;> cases p2 <;> split_ifs <;> simp_all <;> omega
  · intro hp2
    subst hp2
    have ht2' : t2 < 255 := by
      rcases Nat.lt_or_ge t2 255 with h | h
      · exact h
      · exact absurd ⟨rfl, by omega⟩ hlast
    rw [microsVal_flat ov t2 true ht2 hov, if_pos ⟨rfl, ht2'⟩]
    show _ = _ % U32
    simp only [U32]
    exact (Nat.mod_eq_of_lt (by omega)).symm

/-- Witness for `micros_monotone_within_epoch` at a concrete pair of
instants straddling the overflow boundary. -/
theorem micros_monotone_within_epoch_witness :
    (200 : Nat) ≤ 255 ∧ (10 : Nat) ≤ 255 ∧ (7 : Nat) ≤ 4194000 ∧
    epochElapsed 200 false ≤ epochElapsed 10 true ∧
    ¬((true = true) ∧ (10 : Nat) = 255) ∧
    microsVal 7 200 false ≤ microsVal 7 10 true :=
  ⟨by decide, by decide, by decide, by decide, by decide,
    (micros_monotone_within_epoch 7 200 10 false true (by decide) (by decide)
      (by decide) (by decide) (by decide)).1⟩

/-- C9 counterexample: when `millis()` is entered with the global
interrupt-enable flag cleared, the flag is set (not restored to its prior
cleared state) after the call returns, because the body ends with an
unconditional `sei`. -/
theorem millis_enables_interrupts_when_entered_disabled :
    (millisRun false 42).1 = true := by decide

/-- C9 amended: `millis()` disables interrupts, snapshots the stored
counter, and then unconditionally re-enables interrupts: for every prior
flag state the flag is *set* after return (so the prior state is restored
only when interrupts were already enabled), and the value returned is the
stored counter. -/
theorem millis_run_effect (prior : Bool) (mem : Nat) :
    millisRun prior mem = (true, mem) := by
  cases prior <;> rfl

/-- C2: after the frame gap elapses, the next `__vector_11` firing does
*not* transition back to `PulseActive(0)`: with slots 0 and 1 attached
(pins 9 and 10) it leaves slot 0's pin 9 low, starts slot 1's pulse
instead (pin 10 high, compare register = slot 1's width in ticks), and
sets the index to 1 — contradicting the handler's own
"Start first servo on next interrupt" comment, so the first attached
channel pulses only in the very first frame. -/
theorem vector11_after_gap_skips_first_channel :
    (vector11 steadyEntry).currentIndex = 1 ∧
    (vector11 steadyEntry).pins.getD 9 false = false ∧
    (vector11 steadyEntry).pins.getD 10 false = true ∧
    (vector11 steadyEntry).ocr1a = 3000 := by decide

/-- C1: the steady-state scheduling cycle of `__vector_11` does not sum to
the 20000 µs frame.  With slots 0 and 1 attached at 1500 µs each, the
state `steadyEntry` (reached from `start_servo_cycle` after two firings)
repeats with period two firings, and the programmed durations over one
cycle are 1500 µs (slot 1's pulse) and 17000 µs (the gap, which subtracts
both widths although slot 0 never pulsed): their sum is 18500 µs, short of
20000 µs by slot 0's width. -/
theorem servo_steady_cycle_sum_shortfall :
    vector11 (vector11 (start_servo_cycle ⟨twoServoTable, 0, pinsAllLow, 0, 0⟩))
      = steadyEntry ∧
    vector11 (vector11 steadyEntry) = steadyEntry ∧
    (cycleOcrs 13 steadyEntry).map (fun t => t / TICKS_PER_US) = [1500, 17000] ∧
    ((cycleOcrs 13 steadyEntry).map (fun t => t / TICKS_PER_US)).sum = 18500 := by
  decide

/-- C6 counterexample: `attach_with_limits` does not re-clamp the stored
pulse width.  After `Servo::new` (width 1500) followed by
`attach_with_limits(9, 2000, 2400)` the slot stores width 1500 with
`min_pulse = 2000`, so the width lies outside the slot's limits. -/
theorem attach_with_limits_escapes_width_inv :
    ¬ slotWidthInv (applyServoOps Servo.new [ServoOp.attachL 9 2000 2400]) ∧
    (applyServoOps Servo.new [ServoOp.attachL 9 2000 2400]).pulse_width = 1500 ∧
    (applyServoOps Servo.new [ServoOp.attachL 9 2000 2400]).min_pulse = 2000 := by
  decide

/-- Clamping in `write_microseconds` always restores the width invariant as long as
the slot's limits are ordered. -/
theorem write_microseconds_inv (s : ServoState) (us : Nat)
    (h : s.min_pulse ≤ s.max_pulse) :
    slotWidthInv (Servo.write_microseconds s us) := by
  simp only [Servo.write_microseconds, slotWidthInv, Nat.min_def, Nat.max_def]
  split_ifs <;> omega

/-- Sequence lemma for the amended C6: the width invariant is preserved by
every operation sequence in which each `attach_with_limits` installs
limits containing the current width. -/
theorem limitsRespectWidth_inv (ops : List ServoOp) : ∀ s : ServoState,
    slotWidthInv s → limitsRespectWidth s ops = true →
    slotWidthInv (applyServoOps s ops) := by
  induction ops with
  | nil => intro s h _; exact h
  | cons op rest ih =>
    intro s hinv hr
    unfold limitsRespectWidth at hr
    rw [Bool.and_eq_true] at hr
    obtain ⟨hop, hrest⟩ := hr
    have hstep : slotWidthInv (applyServoOp s op) := by
      cases op with
      | attachL p mn mx =>
        simp only [Bool.and_eq_true, decide_eq_true_eq] at hop
        simp only [applyServoOp, Servo.attach_with_limits, slotWidthInv]
        exact ⟨hop.1.1, hop.1.2⟩
      | write a =>
        exact write_microseconds_inv _ _ (hinv.1.trans hinv.2)
      | writeUs us =>
        exact write_microseconds_inv _ _ (hinv.1.trans hinv.2)
    show slotWidthInv (applyServoOps (applyServoOp s op) rest)
    exact ih (applyServoOp s op) hstep hrest

/-- C6 amended: for every sequence of the foreground operations starting
from `Servo::new` in which each `attach`/`attach_with_limits` call
installs limits that contain the slot's pulse width at the moment of the
call, the stored pulse width stays within the slot's current
`[min_pulse, max_pulse]` limits.  (`attach_with_limits` itself performs no
re-clamping, so the restriction on the installed limits is necessary —
see the counterexample.) -/
theorem servo_width_inv_preserved (ops : List ServoOp)
    (h : limitsRespectWidth Servo.new ops = true) :
    slotWidthInv (applyServoOps Servo.new ops) :=
  limitsRespectWidth_inv ops Servo.new (by decide) h

/-- Witness for `servo_width_inv_preserved` on a concrete sequence. -/
theorem servo_width_inv_preserved_witness :
    limitsRespectWidth Servo.new
      [ServoOp.writeUs 1200, ServoOp.attachL 9 1000 2000, ServoOp.write 90]
      = true ∧
    slotWidthInv (applyServoOps Servo.new
      [ServoOp.writeUs 1200, ServoOp.attachL 9 1000 2000, ServoOp.write 90]) :=
  ⟨by decide, servo_width_inv_preserved _ (by decide)⟩

/-- C7 counterexample: the angle round-trip can be off by 2 degrees for a
valid narrow limit pair.  With limits `[1000, 1100]` (range 100),
`write 7` stores `1000 + 7*100/180 = 1003` and `read` returns
`3*180/100 = 5`, and `5 + 1 < 7`. -/
theorem servo_roundtrip_two_degrees_off :
    Servo.read (applyServoOps Servo.new
      [ServoOp.attachL 9 1000 1100, ServoOp.write 7]) = 5 ∧
    5 + 1 < 7 := by decide

/-- The double integer division of the round-trip loses at most one unit
when the pulse-width range is at least 180. -/
theorem roundtrip_bounds (a R : Nat) (ha : a ≤ 180) (hR : 180 ≤ R) :
    a * R / 180 * 180 / R ≤ a ∧ a ≤ a * R / 180 * 180 / R + 1 := by
  have hR0 : 0 < R := by omega
  have h1 : a * R / 180 * 180 ≤ a * R := Nat.div_mul_le_self (a * R) 180
  have h2 : a * R < a * R / 180 * 180 + 180 := by omega
  have h3 : a * R / 180 * 180 / R * R ≤ a * R / 180 * 180 :=
    Nat.div_mul_le_self _ R
  have h4 : a * R / 180 * 180 < a * R / 180 * 180 / R * R + R := by
    calc a * R / 180 * 180
        = R * (a * R / 180 * 180 / R) + a * R / 180 * 180 % R :=
          (Nat.div_add_mod _ _).symm
      _ < R * (a * R / 180 * 180 / R) + R :=
          Nat.add_lt_add_left (Nat.mod_lt _ hR0) _
      _ = a * R / 180 * 180 / R * R + R := by ring
  constructor
  · have hmul : R * (a * R / 180 * 180 / R) ≤ R * a := by
      calc R * (a * R / 180 * 180 / R) = a * R / 180 * 180 / R * R := by ring
        _ ≤ a * R / 180 * 180 := h3
        _ ≤ a * R := h1
        _ = R * a := by ring
    exact Nat.le_of_mul_le_mul_left hmul hR0
  · have hlt : R * a < R * (a * R / 180 * 180 / R + 2) := by
      have e2 : R * (a * R / 180 * 180 / R + 2)
          = a * R / 180 * 180 / R * R + R + R := by ring
      rw [show R * a = a * R by ring, e2]
      omega
    have := Nat.lt_of_mul_lt_mul_left hlt
    omega

/-- C7 amended: the angle round-trip `read(write(angle))` is within ±1
degree for every angle 0–180 and every attached limit pair whose range
`max - min` is at least 180 (`u16` limits, `min + 180 ≤ max`); narrower
ranges can lose up to `180/range + 1` degrees to integer division — see
the counterexample. -/
theorem servo_angle_roundtrip (a mn mx : Nat) (ha : a ≤ 180)
    (hmx : mx < U16) (hspan : mn + 180 ≤ mx) :
    Servo.read (Servo.write (Servo.attach_with_limits Servo.new 9 mn mx) a) ≤ a ∧
    a ≤ Servo.read (Servo.write (Servo.attach_with_limits Servo.new 9 mn mx) a) + 1 := by
  have hU : U16 = 65536 := rfl
  have hmx65 : mx < 65536 := hU ▸ hmx
  have hmn : mn ≤ mx := by omega
  have hR180 : 180 ≤ mx - mn := by omega
  obtain ⟨hb1, hb2⟩ := roundtrip_bounds a (mx - mn) ha hR180
  have hq_le : a * (mx - mn) / 180 ≤ mx - mn := by
    have h1 : a * (mx - mn) ≤ 180 * (mx - mn) :=
      Nat.mul_le_mul_right (mx - mn) ha
    calc a * (mx - mn) / 180 ≤ 180 * (mx - mn) / 180 := Nat.div_le_div_right h1
      _ = mx - mn := by omega
  have hread_le : a * (mx - mn) / 180 * 180 / (mx - mn) ≤ 180 := hb1.trans ha
  have key : Servo.read (Servo.write (Servo.attach_with_limits Servo.new 9 mn mx) a)
      = a * (mx - mn) / 180 * 180 / (mx - mn) := by
    show Servo.read (Servo.write ⟨9, 1500, mn, mx, true⟩ a) = _
    unfold Servo.write Servo.write_microseconds Servo.read
    simp only
    rw [Nat.min_eq_left ha]
    rw [show (mx + U16 - mn) % U16 = mx - mn by rw [hU]; omega]
    rw [show a * (mx - mn) / 180 % U16 = a * (mx - mn) / 180 by
      rw [hU]; omega]
    rw [show (mn + a * (mx - mn) / 180) % U16 = mn + a * (mx - mn) / 180 by
      rw [hU]; omega]
    rw [Nat.max_eq_left (Nat.le_add_right mn _)]
    rw [Nat.min_eq_left (by omega : mn + a * (mx - mn) / 180 ≤ mx)]
    rw [show (mn + a * (mx - mn) / 180 + U16 - mn) % U16 = a * (mx - mn) / 180 by
      rw [hU]; omega]
    rw [Nat.mod_eq_of_lt (lt_of_le_of_lt hread_le (by rw [hU]; omega))]
  rw [key]
  exact ⟨hb1, hb2⟩

/-- Witness for `servo_angle_roundtrip` at angle 90 with the default
limits 544–2400. -/
theorem servo_angle_roundtrip_witness :
    (90 : Nat) ≤ 180 ∧ (2400 : Nat) < U16 ∧ 544 + 180 ≤ 2400 ∧
    (Servo.read (Servo.write (Servo.attach_with_limits Servo.new 9 544 2400) 90) ≤ 90 ∧
      90 ≤ Servo.read (Servo.write (Servo.attach_with_limits Servo.new 9 544 2400) 90) + 1) :=
  ⟨by decide, by decide, by decide,
    servo_angle_roundtrip 90 544 2400 (by decide) (by decide) (by decide)⟩

/-- Writing through `writePortReg` changes only the two port registers. -/
theorem writePortReg_aux_fields (s : ToneState) (addr v : Nat) :
    (writePortReg s addr v).toggleCount = s.toggleCount ∧
    (writePortReg s addr v).ocie2a = s.ocie2a ∧
    (writePortReg s addr v).tonePin = s.tonePin ∧
    (writePortReg s addr v).tonePort = s.tonePort ∧
    (writePortReg s addr v).toneMask = s.toneMask := by
  unfold writePortReg
  split_ifs <;> exact ⟨rfl, rfl, rfl, rfl, rfl⟩

/-- With a zero toggle count, `__vector_7` only toggles the recorded pin:
the count stays zero and the interrupt-enable bit and pin record are
untouched. -/
theorem vector7_zero_count (s : ToneState) (h : s.toggleCount = 0) :
    (vector7 s).toggleCount = 0 ∧ (vector7 s).ocie2a = s.ocie2a ∧
    (vector7 s).tonePin = s.tonePin ∧
    (vector7 s).tonePort = s.tonePort ∧
    (vector7 s).toneMask = s.toneMask := by
  unfold vector7
  simp only []
  by_cases hp : s.tonePort ≠ 0
  · rw [if_pos hp]
    obtain ⟨h0, h1, h2, h3, h4⟩ :=
      writePortReg_aux_fields s s.tonePort (readPortReg s s.tonePort ^^^ s.toneMask)
    rw [h0, h, if_neg (by omega)]
    exact ⟨h0.trans h, h1, h2, h3, h4⟩
  · rw [if_neg hp, h, if_neg (by omega)]
    exact ⟨h, rfl, rfl, rfl, rfl⟩

/-- C3: `tone_duration(11, 440, 1000)` asks for a bounded tone
(`440 * 1000 * 2 / 1000 = 880` toggles), but because `tone_duration`
stores the toggle count *before* calling `tone`, and `tone` resets the
count to 0 (its infinite-duration default), the started tone has toggle
count 0: the compare-match handler then never decrements a countdown,
never disables the interrupt, and never clears the pin record — the tone
sounds forever instead of stopping after 880 toggles, contradicting
`tone_duration`'s own documented behavior. -/
theorem tone_duration_never_stops :
    toneBugState.toggleCount = 0 ∧
    toneBugState.ocie2a = true ∧
    toneBugState.tonePin = some 11 ∧
    ∀ n, (vector7^[n] toneBugState).ocie2a = true ∧
      (vector7^[n] toneBugState).tonePin = some 11 := by
  refine ⟨by decide, by decide, by decide, ?_⟩
  have key : ∀ n, (vector7^[n] toneBugState).toggleCount = 0 ∧
      (vector7^[n] toneBugState).ocie2a = true ∧
      (vector7^[n] toneBugState).tonePin = some 11 := by
    intro n
    induction n with
    | zero => exact ⟨by decide, by decide, by decide⟩
    | succ n ih =>
      rw [Function.iterate_succ_apply']
      obtain ⟨h0, h1, h2⟩ := ih
      obtain ⟨z0, z1, z2, _, _⟩ := vector7_zero_count _ h0
      exact ⟨z0, z1.trans h1, z2.trans h2⟩
  exact fun n => ⟨(key n).2.1, (key n).2.2⟩

/-- Toggling one bit of a port register leaves every other bit as it was. -/
theorem testBit_toggle_ne (x b1 b2 : Nat) (h : b1 ≠ b2) :
    (x ^^^ 1 <<< b2).testBit b1 = x.testBit b1 := by
  rw [Nat.shiftLeft_eq, one_mul, Nat.testBit_xor,
    Nat.testBit_two_pow_of_ne (Ne.symm h)]
  simp

/-- A DDR write does not change any output pin level. -/
theorem pinLevel_writeDdrReg (s : ToneState) (addr v p : Nat) :
    pinLevel (writeDdrReg s addr v) p = pinLevel s p := by
  unfold pinLevel readPortReg writeDdrReg
  split_ifs <;> rfl

/-- The XOR toggle of `__vector_7` on pin `p2`'s port/mask pair leaves the
level of any other valid pin `p1` unchanged. -/
theorem pinLevel_toggle_other (s : ToneState) (p1 p2 : Nat)
    (hne : p1 ≠ p2) (hp1 : p1 ≤ 13) (hp2 : p2 ≤ 13) :
    pinLevel (writePortReg s (pin_to_output_port p2)
      (readPortReg s (pin_to_output_port p2) ^^^ pin_to_bit_mask p2)) p1
      = pinLevel s p1 := by
  unfold pinLevel readPortReg writePortReg pin_to_output_port pin_to_bit_mask
  by_cases c1 : p1 ≤ 7 <;> by_cases c2 : p2 ≤ 7 <;>
    simp only [c1, c2, hp1, hp2, ite_true, ite_false, if_true, if_false] <;>
    (try simp [-Nat.testBit_shiftLeft, -Nat.testBit_xor]) <;>
    first
      | (exact testBit_toggle_ne _ _ _ (by omega))
      | rfl

/-- With a zero toggle count and `p2`'s port/mask recorded, one
`__vector_7` firing leaves any other valid pin's level unchanged. -/
theorem vector7_step_other_pin (u : ToneState) (p1 p2 : Nat)
    (hmask : u.toneMask = pin_to_bit_mask p2)
    (hport : u.tonePort = pin_to_output_port p2)
    (hcount : u.toggleCount = 0)
    (hne : p1 ≠ p2) (hp1 : p1 ≤ 13) (hp2 : p2 ≤ 13) :
    pinLevel (vector7 u) p1 = pinLevel u p1 := by
  obtain ⟨h0, _, _, _, _⟩ :=
    writePortReg_aux_fields u u.tonePort (readPortReg u u.tonePort ^^^ u.toneMask)
  unfold vector7
  simp only []
  by_cases hz : u.tonePort ≠ 0
  · rw [if_pos hz, h0, hcount, if_neg (by omega), hport, hmask]
    exact pinLevel_toggle_other u p1 p2 hne hp1 hp2
  · rw [if_neg hz, hcount, if_neg (by omega)]

/-- The state `tone(pin, f)` produces when the selection succeeds: the
pin/port/mask records point at `pin`, the toggle count is reset to 0, and
the port registers (hence all pin levels) are untouched. -/
theorem tone_fields (s : ToneState) (pin f : Nat) (hf : f ≠ 0) (hp : pin ≤ 13)
    (ocr bits : Nat) (hsel : toneSelect f = some (ocr, bits)) :
    (tone s pin f).tonePin = some pin ∧
    (tone s pin f).toneMask = pin_to_bit_mask pin ∧
    (tone s pin f).tonePort = pin_to_output_port pin ∧
    (tone s pin f).toggleCount = 0 ∧
    (tone s pin f).portb = s.portb ∧
    (tone s pin f).portd = s.portd := by
  unfold tone
  rw [if_neg (by omega : ¬(f = 0 ∨ 13 < pin)), hsel]
  simp only []
  unfold writeDdrReg
  split_ifs <;> exact ⟨rfl, rfl, rfl, rfl, rfl, rfl⟩

/-- C10: starting `tone(p2, f)` (valid pin, representable frequency) while
a tone is active on a different pin `p1` overwrites the global pin, port
and mask records with `p2`'s, performs no write to `p1`'s output level,
and every subsequent Timer2 compare interrupt toggles only `p2`: after any
number of interrupts `p1`'s output level is exactly what it was when the
replacement happened. -/
theorem tone_replacement_latches_old_pin (s : ToneState) (p1 p2 f n ocr bits : Nat)
    (hactive : s.tonePin = some p1) (hne : p1 ≠ p2)
    (hp1 : p1 ≤ 13) (hp2 : p2 ≤ 13) (hf : f ≠ 0)
    (hsel : toneSelect f = some (ocr, bits)) :
    (tone s p2 f).tonePin = some p2 ∧
    (tone s p2 f).toneMask = pin_to_bit_mask p2 ∧
    (tone s p2 f).tonePort = pin_to_output_port p2 ∧
    pinLevel (tone s p2 f) p1 = pinLevel s p1 ∧
    pinLevel (vector7^[n] (tone s p2 f)) p1 = pinLevel s p1 := by
  obtain ⟨f1, f2, f3, f4, f5, f6⟩ := tone_fields s p2 f hf hp2 ocr bits hsel
  have hlevel : pinLevel (tone s p2 f) p1 = pinLevel s p1 := by
    unfold pinLevel readPortReg
    split_ifs <;> simp [f5, f6]
  refine ⟨f1, f2, f3, hlevel, ?_⟩
  have key : ∀ m, pinLevel (vector7^[m] (tone s p2 f)) p1 = pinLevel s p1 ∧
      (vector7^[m] (tone s p2 f)).toneMask = pin_to_bit_mask p2 ∧
      (vector7^[m] (tone s p2 f)).tonePort = pin_to_output_port p2 ∧
      (vector7^[m] (tone s p2 f)).toggleCount = 0 := by
    intro m
    induction m with
    | zero => exact ⟨hlevel, f2, f3, f4⟩
    | succ m ih =>
      obtain ⟨ih1, ih2, ih3, ih4⟩ := ih
      rw [Function.iterate_succ_apply']
      obtain ⟨z0, _, _, z3, z4⟩ := vector7_zero_count _ ih4
      exact ⟨(vector7_step_other_pin _ p1 p2 ih2 ih3 ih4 hne hp1 hp2).trans ih1,
        z4.trans ih2, z3.trans ih3, z0⟩
  exact (key n).1

/-- For a nonzero `u16` frequency, the divisor-1 compare value is at least
122 (so its `- 1` never trips the `ocr == 0` no-op guard). -/
theorem toneCalcOcr_div_one (f : Nat) (hf1 : 1 ≤ f) (hf2 : f ≤ 65535) :
    122 ≤ toneCalcOcr f 1 := by
  unfold toneCalcOcr F_CPU
  rw [Nat.div_one, Nat.div_div_eq_div_mul]
  rw [Nat.le_div_iff_mul_le (by omega)]
  omega

/-- When a divisor's compare value is the first to fit (its predecessor in
the table, a factor at most 8 smaller, did not fit), the fitting value is
at least `257/8 = 32` — so the `- 1` in the loop cannot produce the 0 that
the no-op guard checks for. -/
theorem toneCalcOcr_chain (f d k e : Nat) (he : e = d * k)
    (hk : 0 < k) (hk8 : k ≤ 8)
    (hnot : ¬(0 < toneCalcOcr f d ∧ toneCalcOcr f d ≤ 256))
    (hcur : 0 < toneCalcOcr f e) : 32 ≤ toneCalcOcr f e := by
  subst he
  have hsplit : toneCalcOcr f (d * k) = toneCalcOcr f d / k := by
    unfold toneCalcOcr
    exact (Nat.div_div_eq_div_mul _ d k).symm
  have hle : toneCalcOcr f (d * k) ≤ toneCalcOcr f d := by
    rw [hsplit]; exact Nat.div_le_self _ _
  have h257 : 257 ≤ toneCalcOcr f d := by omega
  rw [hsplit]
  calc 32 = 257 / 8 := by norm_num
    _ ≤ 257 / k := Nat.div_le_div_left hk8 hk
    _ ≤ toneCalcOcr f d / k := Nat.div_le_div_right h257

/-- C8: for every valid pin and nonzero `u16` frequency, `tone` selects
exactly the first divisor of the ordered table (1, 8, 32, 64, 128, 256,
1024) whose compare value `F_CPU / f / 2 / divisor` lies in `1..=256`
(programming `compare - 1` with that divisor's clock-select bits), and the
call is a silent no-op — the state is returned unchanged — if and only if
no divisor's compare value lies in that range. -/
theorem tone_prescaler_first_fit (s : ToneState) (pin f : Nat)
    (hp : pin ≤ 13) (hf1 : 1 ≤ f) (hf2 : f ≤ 65535) :
    toneSelect f =
      (PRESCALERS.find? fun e =>
        decide (0 < toneCalcOcr f e.2 ∧ toneCalcOcr f e.2 ≤ 256)).map
        (fun e => (toneCalcOcr f e.2 - 1, e.1)) ∧
    (toneSelect f = none → tone s pin f = s) ∧
    (∀ ocr bits, toneSelect f = some (ocr, bits) →
      (tone s pin f).ocr2a = ocr % U8 ∧ (tone s pin f).tccr2b = bits ∧
      (tone s pin f).ocie2a = true) := by
  refine ⟨?_, ?_, ?_⟩
  · unfold toneSelect PRESCALERS
    simp only [findOcrLoop, List.find?]
    by_cases h1 : 0 < toneCalcOcr f 1 ∧ toneCalcOcr f 1 ≤ 256
    · have hge := toneCalcOcr_div_one f hf1 hf2
      simp [h1]
      omega
    · by_cases h2 : 0 < toneCalcOcr f 8 ∧ toneCalcOcr f 8 ≤ 256
      · have hge := toneCalcOcr_chain f 1 8 8 (by norm_num) (by norm_num)
          (by norm_num) h1 h2.1
        simp [h1, h2]
        omega
      · by_cases h3 : 0 < toneCalcOcr f 32 ∧ toneCalcOcr f 32 ≤ 256
        · have hge := toneCalcOcr_chain f 8 4 32 (by norm_num) (by norm_num)
            (by norm_num) h2 h3.1
          simp [h1, h2, h3]
          omega
        · by_cases h4 : 0 < toneCalcOcr f 64 ∧ toneCalcOcr f 64 ≤ 256
          · have hge := toneCalcOcr_chain f 32 2 64 (by norm_num) (by norm_num)
              (by norm_num) h3 h4.1
            simp [h1, h2, h3, h4]
            omega
          · by_cases h5 : 0 < toneCalcOcr f 128 ∧ toneCalcOcr f 128 ≤ 256
            · have hge := toneCalcOcr_chain f 64 2 128 (by norm_num)
                (by norm_num) (by norm_num) h4 h5.1
              simp [h1, h2, h3, h4, h5]
              omega
            · by_cases h6 : 0 < toneCalcOcr f 256 ∧ toneCalcOcr f 256 ≤ 256
              · have hge := toneCalcOcr_chain f 128 2 256 (by norm_num)
                  (by norm_num) (by norm_num) h5 h6.1
                simp [h1, h2, h3, h4, h5, h6]
                omega
              · by_cases h7 : 0 < toneCalcOcr f 1024 ∧ toneCalcOcr f 1024 ≤ 256
                · have hge := toneCalcOcr_chain f 256 4 1024 (by norm_num)
                    (by norm_num) (by norm_num) h6 h7.1
                  simp [h1, h2, h3, h4, h5, h6, h7]
                  omega
                · simp [h1, h2, h3, h4, h5, h6, h7]
  · intro hnone
    unfold tone
    rw [if_neg (by omega : ¬(f = 0 ∨ 13 < pin)), hnone]
  · intro ocr bits hsel
    unfold tone
    rw [if_neg (by omega : ¬(f = 0 ∨ 13 < pin)), hsel]
    simp only []
    exact ⟨trivial, trivial, trivial⟩

/-- Witness for `tone_prescaler_first_fit` at 440 Hz on pin 11: the first
fitting divisor is 128, with compare value 142 (so `OCR2A = 141`). -/
theorem tone_prescaler_first_fit_witness :
    (11 : Nat) ≤ 13 ∧ (1 : Nat) ≤ 440 ∧ (440 : Nat) ≤ 65535 ∧
    (toneSelect 440 =
      (PRESCALERS.find? fun e =>
        decide (0 < toneCalcOcr 440 e.2 ∧ toneCalcOcr 440 e.2 ≤ 256)).map
        (fun e => (toneCalcOcr 440 e.2 - 1, e.1)) ∧
      (toneSelect 440 = none → tone toneInit 11 440 = toneInit) ∧
      (∀ ocr bits, toneSelect 440 = some (ocr, bits) →
        (tone toneInit 11 440).ocr2a = ocr % U8 ∧
        (tone toneInit 11 440).tccr2b = bits ∧
        (tone toneInit 11 440).ocie2a = true)) :=
  ⟨by decide, by decide, by decide,
    tone_prescaler_first_fit toneInit 11 440 (by decide) (by decide) (by decide)⟩

/-- Witness for `tone_replacement_latches_old_pin`: a tone is active on
pin 11; `tone(5, 880)` replaces it, and after 3 further compare
interrupts pin 11 still holds its old level. -/
theorem tone_replacement_latches_old_pin_witness :
    (tone toneInit 11 440).tonePin = some 11 ∧ (11 : Nat) ≠ 5 ∧
    (11 : Nat) ≤ 13 ∧ (5 : Nat) ≤ 13 ∧ (880 : Nat) ≠ 0 ∧
    toneSelect 880 = some (141, 4) ∧
    ((tone (tone toneInit 11 440) 5 880).tonePin = some 5 ∧
      (tone (tone toneInit 11 440) 5 880).toneMask = pin_to_bit_mask 5 ∧
      (tone (tone toneInit 11 440) 5 880).tonePort = pin_to_output_port 5 ∧
      pinLevel (tone (tone toneInit 11 440) 5 880) 11
        = pinLevel (tone toneInit 11 440) 11 ∧
      pinLevel (vector7^[3] (tone (tone toneInit 11 440) 5 880)) 11
        = pinLevel (tone toneInit 11 440) 11) :=
  ⟨by decide, by decide, by decide, by decide, by decide, by decide,
    tone_replacement_latches_old_pin (tone toneInit 11 440) 11 5 880 3 141 4
      (by decide) (by decide) (by decide) (by decide) (by decide) (by decide)⟩

end Ossidata
